import Mathlib

/-!
Shallow embedding of the rack-designer project/texture lifecycle manager
(`src/lib/project.ts` together with the `Path` utility of `$lib/io`).

Modelling conventions:

* Machine state is an explicit `FS` record threaded through every operation.
  The file-system and dialog collaborators (`exists`, `mkdir`, `create`,
  `writeTextFile`, `readTextFile`, `copyFile`, `remove`, `readDir`, the
  picker) are modelled by pure functions on `FS` following their documented
  contracts; the picker's choice is an explicit `Option String` argument.
* Promises are modelled by `Except Err`: a rejected promise is `.error`.
  A promise that the source creates but neither returns nor awaits
  (an unhandled rejection) is recorded in `FS.unhandled` by `fire`; the
  caller continues, exactly as the JavaScript caller does.
* `new Date().toISOString()` is modelled by `FS.dateNow`, which consumes the
  next instant (a `Nat`) from the `clock` stream; two separate calls may or
  may not observe the same instant, as in reality.
* `uuid.v7` results are explicit arguments of the operations that generate
  them; freshness is a hypothesis where a claim needs it.
* JSON serialisation is modelled by the `Content` datatype: writing
  `JSON.stringify x` stores the structured value, `JSON.parse` recovers it
  (the spec's round-trip property); parsing anything else fails.
* JavaScript array/string quirks are modelled explicitly: `jsIndex` is
  bracket indexing (negative indices yield `undefined`, i.e. `none`), and
  `jsSpread` is the spread of a primitive string (its characters).
-/

deriving instance DecidableEq for Except

namespace RD

/-- Error/rejection values carried by rejected promises. -/
abbrev Err := String

/-- Platform path separator (`sep()` of the Tauri path API, Linux model). -/
def sep : String := "/"

/-- Split a character list at every occurrence of the given character
(semantics of `String.split` of JavaScript with a one-character sep). -/
def splitCharAux (c : Char) : List Char → List Char → List (List Char)
  | [], acc => [acc.reverse]
  | d :: rest, acc =>
    if d = c then acc.reverse :: splitCharAux c rest []
    else splitCharAux c rest (d :: acc)

/-- Split a string at every occurrence of the given character. -/
def splitChar (c : Char) (s : String) : List String :=
  (splitCharAux c s.data []).map (fun l => String.mk l)

/-- Join string segments with the separator. -/
def joinWith (c : Char) (parts : List String) : String :=
  match parts with
  | [] => ""
  | p :: rest => rest.foldl (fun acc q => acc ++ String.mk [c] ++ q) p

/-- Models `join` of the Tauri path API: joins the given segments with the
separator, skipping empty segments. -/
def rawJoinPath (parts : List String) : String :=
  joinWith '/' (parts.filter (fun s => s ≠ ""))

/-- Final segment of a path string (models `basename` of the path API). -/
def rawBasename (s : String) : String :=
  ((splitChar '/' s).getLast?).getD ""

/-- Suffix (with the leading dot) of a plain file name, Node semantics:
no dot or a leading-dot-only name gives the empty suffix. -/
def extnameOfName (name : String) : String :=
  match splitChar '.' name with
  | [] => ""
  | [_] => ""
  | "" :: [_] => ""
  | parts => "." ++ (parts.getLast?).getD ""

/-- Rejection message produced when `extname` is invoked on `undefined`. -/
def extnameUndefinedMsg : Err := "extname: expected a string path, got undefined"

/-- Models `extname` of the path API applied to a JavaScript value that may
be `undefined` (`none`): the call rejects on `undefined`. -/
def rawExtname : Option String → Except Err String
  | none => .error extnameUndefinedMsg
  | some s => .ok (extnameOfName (rawBasename s))

/-- JavaScript bracket indexing on an array: a negative index is an absent
property and yields `undefined` (`none`). -/
def jsIndex (xs : List String) (i : Int) : Option String :=
  if i < 0 then none else xs.get? i.toNat

/-- JavaScript spread of a primitive string: its characters. -/
def jsSpread (s : String) : List String :=
  s.data.map (fun c => String.mk [c])

/-- Texture record of the manifest (`interface Texture`, src/lib/project.ts). -/
structure Texture where
  id : String
  originalName : String
  extension : String
  size : Option Nat := none
deriving Repr, DecidableEq

/-- Manifest record (`interface Manifest`, src/lib/project.ts). Timestamps
are modelled as `Nat` instants standing for the ISO-8601 strings. -/
structure Manifest where
  version : String
  name : String
  id : String
  rackSize : Nat
  textures : List Texture
  createdAt : Nat
  modifiedAt : Nat
deriving Repr, DecidableEq

/-- Path utility of `$lib/io`: a base-directory segment list and a relative
segment list. The source only ever constructs paths with an absent base. -/
structure Path where
  basePathParts : List String
  pathParts : List String
deriving Repr, DecidableEq

/-- Project record (`interface Project`, src/lib/project.ts). -/
structure Project where
  path : Path
  manifest : Manifest
deriving Repr, DecidableEq

/-- Stored file contents. `JSON.stringify` of a manifest or of a project
stores the structured value; `create`/`touch` store `empty`. -/
inductive Content where
  | empty : Content
  | manifestData : Manifest → Content
  | projectData : Project → Content
  | raw : String → Content
deriving Repr, DecidableEq

/-- File-system state: existing directories and files (keyed by their joined
path string), the clock stream consumed by `Date` calls, and the unhandled
promise rejections observed so far. -/
structure FS where
  dirs : List String := []
  files : List (String × Content) := []
  clock : List Nat := []
  unhandled : List Err := []
deriving Repr, DecidableEq

/-- Models `new Date().toISOString()`: consume the next instant. -/
def FS.dateNow (fs : FS) : Nat × FS :=
  match fs.clock with
  | [] => (0, fs)
  | t :: rest => (t, { fs with clock := rest })

/-- Record an unhandled promise rejection. -/
def FS.addUnhandled (fs : FS) (e : Err) : FS :=
  { fs with unhandled := fs.unhandled ++ [e] }

/-- Calling an async operation without awaiting it: its effects apply at the
call site, and a rejection becomes an unhandled rejection instead of
aborting the caller. -/
def fire (fs : FS) (r : Except Err FS) : FS :=
  match r with
  | .ok fs' => fs'
  | .error e => fs.addUnhandled e

/-- Parent path string ("" for a single segment, which always exists as the
ambient base directory). -/
def parentOf (p : String) : String :=
  joinWith '/' ((splitChar '/' p).dropLast)

/-- Does this path string name an existing directory (the ambient base "" is
always a directory)? -/
def FS.isDirAt (fs : FS) (p : String) : Bool :=
  p = "" ∨ p ∈ fs.dirs

/-- Content of the file at a path string, if one exists. -/
def FS.readFile (fs : FS) (p : String) : Option Content :=
  (fs.files.find? (fun kv => kv.1 == p)).map (fun kv => kv.2)

/-- Does a file exist at this path string? -/
def FS.isFileAt (fs : FS) (p : String) : Bool :=
  (fs.readFile p).isSome

/-- Models the `exists` collaborator: directory or file present. -/
def FS.existsAt (fs : FS) (p : String) : Bool :=
  fs.isDirAt p ∨ fs.isFileAt p

/-- Every ancestor path string of `p`, outermost first, `p` itself last. -/
def ancestors (p : String) : List String :=
  let segs := splitChar '/' p
  (List.range segs.length).map
    (fun i => joinWith '/' (segs.take (i + 1)))

/-- Models the `mkdir` collaborator: with `recursive`, behaves like
`mkdir -p` (creates missing ancestors, succeeds if already a directory);
without it, fails when the target exists or the parent is missing. -/
def FS.mkdirAt (fs : FS) (p : String) (recursive : Bool) : Except Err FS :=
  if fs.isFileAt p then .error ("mkdir failed, file exists at " ++ p)
  else if recursive then
    .ok { fs with dirs := fs.dirs ++ (ancestors p).filter (fun a => a ∉ fs.dirs) }
  else if fs.isDirAt p then .error ("mkdir failed, directory exists at " ++ p)
  else if ¬ fs.isDirAt (parentOf p) then .error ("mkdir failed, no parent directory for " ++ p)
  else .ok { fs with dirs := fs.dirs ++ [p] }

/-- Models the `create` collaborator: creates (or truncates) a file; the
parent directory must exist and the target must not be a directory. -/
def FS.createFileAt (fs : FS) (p : String) : Except Err FS :=
  if fs.isDirAt p then .error ("create failed, directory exists at " ++ p)
  else if ¬ fs.isDirAt (parentOf p) then .error ("create failed, no parent directory for " ++ p)
  else .ok { fs with files := (p, Content.empty) :: fs.files.filter (fun kv => kv.1 ≠ p) }

/-- Models the `writeTextFile` collaborator: writes (or overwrites) a file. -/
def FS.writeFileAt (fs : FS) (p : String) (c : Content) : Except Err FS :=
  if fs.isDirAt p then .error ("write failed, directory exists at " ++ p)
  else if ¬ fs.isDirAt (parentOf p) then .error ("write failed, no parent directory for " ++ p)
  else .ok { fs with files := (p, c) :: fs.files.filter (fun kv => kv.1 ≠ p) }

/-- Rejection raised by `readTextFile` on an absent file. -/
def readErr (p : String) : Err := "read failed, no file at " ++ p

/-- Models the `readTextFile` collaborator: rejects when no file is there. -/
def FS.readTextAt (fs : FS) (p : String) : Except Err Content :=
  match fs.readFile p with
  | some c => .ok c
  | none => .error (readErr p)

/-- Models the `copyFile` collaborator: the source must be a file and the
destination's parent directory must exist. -/
def FS.copyFileAt (fs : FS) (src dst : String) : Except Err FS :=
  match fs.readFile src with
  | none => .error ("copy failed, no file at " ++ src)
  | some c => fs.writeFileAt dst c

/-- Is `q` strictly inside the directory `p`? -/
def underDir (p q : String) : Bool :=
  (p ++ sep).data.isPrefixOf q.data

/-- Models the `remove` collaborator: removes a file, or a directory (only
when empty unless `recursive`); rejects when nothing is there. -/
def FS.removeAt (fs : FS) (p : String) (recursive : Bool) : Except Err FS :=
  if fs.isFileAt p then
    .ok { fs with files := fs.files.filter (fun kv => kv.1 ≠ p) }
  else if p ≠ "" ∧ p ∈ fs.dirs then
    let nonEmpty := fs.dirs.any (fun q => underDir p q) ∨ fs.files.any (fun kv => underDir p kv.1)
    if nonEmpty ∧ ¬ recursive then .error ("remove failed, directory not empty at " ++ p)
    else .ok { fs with
      dirs := fs.dirs.filter (fun q => q ≠ p ∧ ¬ underDir p q),
      files := fs.files.filter (fun kv => ¬ underDir p kv.1) }
  else .error ("remove failed, nothing at " ++ p)

/-- Directory entry returned by `readDir`: name and a directory flag. -/
structure DirEntry where
  name : String
  isDirectory : Bool
deriving Repr, DecidableEq

/-- Models the `readDir` collaborator: immediate children of a directory. -/
def FS.readDirAt (fs : FS) (p : String) : Except Err (List DirEntry) :=
  if ¬ fs.isDirAt p then .error ("readDir failed, no directory at " ++ p)
  else .ok (((fs.dirs.filter (fun q => parentOf q = p ∧ q ≠ p)).map
        (fun q => DirEntry.mk (rawBasename q) true)) ++
      ((fs.files.map Prod.fst).filter (fun q => parentOf q = p)).map
        (fun q => DirEntry.mk (rawBasename q) false))

/-- Construction `new Path(strPathParts: string[])` with no base directory:
the base segment list defaults to `[]`. -/
def Path.ofParts (ps : List String) : Path := ⟨[], ps⟩

/-- Construction `new Path(selected as string)` with a primitive string.
A primitive string fails the `instanceof String` test, so the source stores
the string itself where a `string[]` is expected. Everywhere `pathParts` is
subsequently used it is either spread (yielding the string's characters) or
indexed with `[-1]` (yielding `undefined`, matching `jsIndex` on any list),
so the character list is an exact observational model of that value. -/
def Path.ofJsString (s : String) : Path := ⟨[], jsSpread s⟩

/-- Method `absolute()`: join base and relative segments. -/
def Path.absolute (p : Path) : String :=
  rawJoinPath (p.basePathParts ++ p.pathParts)

/-- Method `relativePath()`: join the relative segments only. -/
def Path.relativePath (p : Path) : String :=
  rawJoinPath p.pathParts

/-- Method `exists()`: queries the `exists` collaborator on `absolute()`. -/
def Path.pathExists (p : Path) (fs : FS) : Bool :=
  fs.existsAt p.absolute

/-- Method `join(...strPathParts)`: joins the receiver's relative segments
with the new ones and re-splits on the separator; the result carries no
base segments (`new Path(joined.split(sep))`). -/
def Path.join (p : Path) (segs : List String) : Path :=
  ⟨[], splitChar '/' (rawJoinPath (p.pathParts ++ segs))⟩

/-- Rejection raised by `touch` on an existing target without `existOk`. -/
def touchExistsMsg : Err :=
  "The file at this path already exists. Set `existOk` to `true` to ignore this."

/-- Method `touch(existOk)`: rejects when the target exists and `existOk` is
false, otherwise creates the file. -/
def Path.touch (p : Path) (fs : FS) (existOk : Bool) : Except Err FS :=
  if p.pathExists fs ∧ ¬ existOk then .error touchExistsMsg
  else fs.createFileAt p.absolute

/-- Rejection raised by `mkdir` on an existing target without `existOk`. -/
def mkdirExistsMsg : Err :=
  "The path must not exist to create a directory there. Set `existOk` to `true` to ignore this."

/-- Method `mkdir(existOk = false, recursive = true)`: rejects when the
target exists and `existOk` is false, otherwise creates the directory. -/
def Path.mkdir (p : Path) (fs : FS) (existOk recursive : Bool) : Except Err FS :=
  if p.pathExists fs ∧ ¬ existOk then .error mkdirExistsMsg
  else fs.mkdirAt p.absolute recursive

/-- Rejection raised by `remove` on a missing target without `missingOk`. -/
def removeMissingMsg : Err :=
  "The file or directory does not exist. Set `missingOk` to `true` to ignore this."

/-- Method `remove(missingOk = false, recursive = false)`: rejects when the
target is absent and `missingOk` is false; note that the existence check
uses `absolute()` while the actual removal acts on `relativePath()`, as in
the source. -/
def Path.remove (p : Path) (fs : FS) (missingOk recursive : Bool) : Except Err FS :=
  if ¬ p.pathExists fs ∧ ¬ missingOk then .error removeMissingMsg
  else fs.removeAt p.relativePath recursive

/-- Method `basename()`: final segment of the absolute path string. -/
def Path.basename (p : Path) : String :=
  rawBasename p.absolute

/-- Method `extension()`: `extname(this.pathParts[-1])`. The index `-1` is
an absent JavaScript array property, so `extname` receives `undefined`. -/
def Path.extension (p : Path) : Except Err String :=
  rawExtname (jsIndex p.pathParts (-1))

/-- Method `readDir()`: lists immediate children of the absolute path. -/
def Path.readDir (p : Path) (fs : FS) : Except Err (List DirEntry) :=
  fs.readDirAt p.absolute

/-- Helper `sanitize` of src/lib/project.ts: every character outside
`[A-Za-z0-9-_]` becomes an underscore. -/
def sanitize (s : String) : String :=
  String.mk (s.data.map (fun c =>
    if c.isAlphanum ∨ c = '-' ∨ c = '_' then c else '_'))

namespace ProjectManager

/-- The process-wide shared projects folder handle
(`new Path(["Rack Designer", "Projects"])`, lazily cached). -/
def projectsFolder : Path := Path.ofParts ["Rack Designer", "Projects"]

/-- The process-wide local application-data folder handle (`new Path([])`). -/
def localDataFolder : Path := Path.ofParts []

/-- Internal `saveManifest(project)`: serialize the manifest and overwrite
`manifest.json` at the project's root. -/
def saveManifest (fs : FS) (project : Project) : Except Err FS :=
  fs.writeFileAt (project.path.join ["manifest.json"]).absolute
    (Content.manifestData project.manifest)

/-- Internal `setCurrentProject(project)`: serialize the project into
`current.json` under the local application-data folder. -/
def setCurrentProject (fs : FS) (project : Project) : Except Err FS :=
  fs.writeFileAt (localDataFolder.join ["current.json"]).absolute
    (Content.projectData project)

/-- Operation `createProject(name)`. `projectId` is the fresh `uuid.v7`.
The three directory/file creations on lines 120-125 of the source are not
awaited, so their rejections are unhandled and the operation continues
(modelled by `fire`); note that, as in the source, `manifestPath` and
`assetsPath` are joined onto the shared projects folder, not onto the new
project's folder. -/
def createProject (fs : FS) (name : String) (projectId : String) :
    Except Err (FS × Project) :=
  let sanitizedName := sanitize name
  let projectPath := projectsFolder.join [sanitizedName]
  let manifestPath := projectsFolder.join ["manifest.json"]
  let assetsPath := projectsFolder.join ["assets"]
  let fs := fire fs (projectsFolder.mkdir fs true true)
  let fs := fire fs (projectPath.mkdir fs false true)
  let fs := fire fs (assetsPath.mkdir fs false true)
  let fs := fire fs (manifestPath.touch fs false)
  let (t1, fs) := fs.dateNow
  let (t2, fs) := fs.dateNow
  let manifest : Manifest :=
    { version := "1.0", name := name, id := projectId, rackSize := 42,
      textures := [], createdAt := t1, modifiedAt := t2 }
  let project : Project := ⟨projectPath, manifest⟩
  match saveManifest fs project with
  | .error e => .error e
  | .ok fs => .ok (fs, project)

/-- Message of the rejection that `openProject` builds (but does not return)
when the manifest file is missing. -/
def openInvalidMsg : Err :=
  "The given project does not have a manifest folder and cannot be opened."

/-- Models `JSON.parse` of a manifest file's contents. -/
def parseManifest : Content → Except Err Manifest
  | Content.manifestData m => .ok m
  | _ => .error "JSON.parse: not a manifest"

/-- Operation `openProject` given an explicit `Path`. When the manifest is
missing, the source builds a rejection without returning or awaiting it and
then proceeds to read the file anyway; `setCurrentProject` is likewise not
awaited. -/
def openProjectByPath (fs : FS) (folder : Path) : Except Err (FS × Project) := do
  let manifestPath := folder.join ["manifest.json"]
  let fs := if ¬ manifestPath.pathExists fs then fs.addUnhandled openInvalidMsg else fs
  let content ← fs.readTextAt manifestPath.absolute
  let manifest ← parseManifest content
  let project : Project := ⟨folder, manifest⟩
  let fs := fire fs (setCurrentProject fs project)
  return (fs, project)

/-- Operation `openProject` given a folder name under the shared projects
folder (same structure as the `Path` branch). -/
def openProjectByName (fs : FS) (folderName : String) : Except Err (FS × Project) := do
  let projectPath := projectsFolder.join [folderName]
  let manifestPath := projectPath.join ["manifest.json"]
  let fs := if ¬ manifestPath.pathExists fs then fs.addUnhandled openInvalidMsg else fs
  let content ← fs.readTextAt manifestPath.absolute
  let manifest ← parseManifest content
  let project : Project := ⟨projectPath, manifest⟩
  let fs := fire fs (setCurrentProject fs project)
  return (fs, project)

/-- Rejection returned by `importProject` when the picker is dismissed. -/
def importCancelMsg : Err := "User closed file select prompt."

/-- Rejection returned by `importProject` on a selection without manifest. -/
def importInvalidMsg : Err := "Invalid project folder: manifest.json not found"

/-- Models the `copy_directory` Rust command: recursively copies a directory
tree; the source must be a directory. -/
def rawCopyDir (fs : FS) (fromPath toPath : String) : Except Err FS :=
  if ¬ fs.isDirAt fromPath then .error ("copy_directory failed, no directory at " ++ fromPath)
  else .ok { fs with
    dirs := fs.dirs ++ ([toPath] ++ (fs.dirs.filterMap (fun q =>
        if underDir fromPath q then some (toPath ++ sep ++ (q.drop (fromPath.length + 1))) else none))).filter
      (fun a => a ∉ fs.dirs),
    files := (fs.files.filterMap (fun kv =>
        if underDir fromPath kv.1 then some (toPath ++ sep ++ (kv.1.drop (fromPath.length + 1)), kv.2) else none)) ++
      fs.files.filter (fun kv => ¬ underDir toPath kv.1) }

/-- Operation `importProject()`: `selected` is the picker's result
(`none` when dismissed, in which case the operation rejects). The selected
string is wrapped as `new Path(selected as string)`. -/
def importProject (fs : FS) (selected : Option String) : Except Err (FS × Path) := do
  match selected with
  | none => .error importCancelMsg
  | some sel => do
    let projectPath := Path.ofJsString sel
    let manifestPath := projectPath.join ["manifest.json"]
    if ¬ manifestPath.pathExists fs then .error importInvalidMsg
    else do
      let content ← fs.readTextAt manifestPath.absolute
      let manifest ← parseManifest content
      let pathTo := projectsFolder.join [sanitize manifest.name]
      let fs ← rawCopyDir fs sel pathTo.absolute
      return (fs, projectPath)

/-- Manifest mutation performed by a successful `addTexture`
(lines 262-263 of the source): push the new texture record and refresh
`modifiedAt`. -/
def pushTexture (m : Manifest) (t : Texture) (now : Nat) : Manifest :=
  { m with textures := m.textures ++ [t], modifiedAt := now }

/-- Operation `addTexture(project)`: `selected` is the picker's result
(`none` when dismissed, returning `null` successfully), `textureId` the
fresh `uuid.v7`. The selected file is wrapped as
`new Path(selected as string)` and its `extension()` is consulted to build
the destination file name. -/
def addTexture (fs : FS) (project : Project) (selected : Option String)
    (textureId : String) : Except Err (FS × Project × Option Texture) := do
  match selected with
  | none => return (fs, project, none)
  | some sel => do
    let sourcePath := Path.ofJsString sel
    let ext ← sourcePath.extension
    let destinationFilename := "texture_" ++ textureId ++ ext
    let destinationPath := project.path.join ["assets", destinationFilename]
    let fs ← fs.copyFileAt sourcePath.absolute destinationPath.absolute
    let ext2 ← sourcePath.extension
    let texture : Texture :=
      { id := textureId, originalName := sourcePath.basename, extension := ext2 }
    let (t, fs) := fs.dateNow
    let project : Project := ⟨project.path, pushTexture project.manifest texture t⟩
    let fs ← saveManifest fs project
    return (fs, project, some texture)

/-- Operation `getTexturePath(project, texture)`: joins the project path,
`assets`, and the deterministic file name; takes no file-system state. -/
def getTexturePath (project : Project) (texture : Texture) : Path :=
  project.path.join ["assets", "texture_" ++ texture.id ++ texture.extension]

/-- Operation `removeTexture(project, textureId)`: looks the texture up by
id (`false` when absent); deletes its asset file, catching a failure with
`false` and no mutation; on success splices the record out, refreshes
`modifiedAt` and persists. -/
def removeTexture (fs : FS) (project : Project) (textureId : String) :
    Except Err (FS × Project × Bool) :=
  match project.manifest.textures.findIdx? (fun t => t.id == textureId) with
  | none => .ok (fs, project, false)
  | some idx =>
    if hlt : idx < project.manifest.textures.length then
      let texture := project.manifest.textures.get ⟨idx, hlt⟩
      let texturePath := getTexturePath project texture
      match texturePath.remove fs false false with
      | .error _ => .ok (fs, project, false)
      | .ok fs1 =>
        let (t, fs1) := fs1.dateNow
        let project' : Project := ⟨project.path,
          { project.manifest with
            textures := project.manifest.textures.eraseIdx idx, modifiedAt := t }⟩
        match saveManifest fs1 project' with
        | .error e => .error e
        | .ok fs2 => .ok (fs2, project', true)
    else .ok (fs, project, false)

/-- Operation `listProjects()`: empty list when the shared projects folder
is absent or empty; otherwise every directory entry is opened as a project
via `openProject`, any failure aborting the whole listing. -/
def listProjects (fs : FS) : Except Err (FS × List Project) := do
  if ¬ projectsFolder.pathExists fs then return (fs, [])
  else do
    let entries ← projectsFolder.readDir fs
    if entries.length = 0 then return (fs, [])
    else do
      let (fs, projects) ← entries.foldlM
        (fun (st : FS × List Project) entry =>
          if entry.isDirectory then do
            let (fs', p) ← openProjectByName st.1 entry.name
            return (fs', st.2 ++ [p])
          else return st)
        (fs, ([] : List Project))
      return (fs, projects)

end ProjectManager

/-- Pairwise distinctness of the texture ids of a manifest. -/
def distinctIds (m : Manifest) : Prop :=
  (m.textures.map Texture.id).Nodup

instance (m : Manifest) : Decidable (distinctIds m) := by
  unfold distinctIds; infer_instance

/-- Fresh machine state: no directories, no files, a clock stream. -/
def fsFresh : FS := { clock := [5, 5, 7, 9] }

/-- Concrete texture fixture. -/
def texA : Texture := { id := "t1", originalName := "photo.png", extension := ".png" }

/-- Concrete manifest fixture holding `texA`. -/
def manA : Manifest :=
  { version := "1.0", name := "A", id := "p1", rackSize := 42,
    textures := [texA], createdAt := 5, modifiedAt := 5 }

/-- Concrete project fixture at the standard location. -/
def projA : Project := ⟨Path.ofParts ["Rack Designer", "Projects", "A"], manA⟩

/-- Machine state holding only a directory `p` with no manifest inside. -/
def fsP : FS := { dirs := ["p"] }

/-- Texture fixture whose id is absent from `manA`. -/
def texW : Texture := { id := "t2", originalName := "b.jpg", extension := ".jpg" }

/-- Helper: `Path.extension` rejects on every path, since the JavaScript
index `-1` never names an array element. -/
theorem extension_eq_error (p : Path) :
    Path.extension p = .error extnameUndefinedMsg := rfl

/-- Helper: once a file is selected, `addTexture` rejects while deriving the
destination file name (the very first awaited step consults
`Path.extension`). -/
theorem addTexture_some_eq_error (fs : FS) (proj : Project) (sel tid : String) :
    ProjectManager.addTexture fs proj (some sel) tid = .error extnameUndefinedMsg := rfl

/-- Helper: a successful write leaves the written content readable at the
written path. -/
theorem FS.readFile_writeFileAt (fs fs' : FS) (p : String) (c : Content)
    (h : fs.writeFileAt p c = .ok fs') : fs'.readFile p = some c := by
  unfold FS.writeFileAt at h
  split at h
  · exact Except.noConfusion h
  · split at h
    · exact Except.noConfusion h
    · cases Except.ok.inj h
      simp [FS.readFile, List.find?]

/-- Claim C1: on a fresh machine, `createProject` returns a project whose folder
exists and whose manifest has empty textures and rackSize 42, but the
`assets` subfolder of the project does NOT exist: the source joins
`assets` (and the placeholder `manifest.json`) onto the shared projects
folder instead of the new project folder, so `assets` is created at the
projects root. -/
theorem createProject_assets_misplaced :
    (ProjectManager.createProject fsFresh "A" "p1").map (fun r =>
      (r.2.manifest.textures, r.2.manifest.rackSize,
       r.1.existsAt r.2.path.absolute,
       r.1.existsAt (r.2.path.join ["assets"]).absolute,
       r.1.existsAt (ProjectManager.projectsFolder.join ["assets"]).absolute,
       r.1.existsAt (r.2.path.join ["manifest.json"]).absolute)) =
    .ok ([], 42, true, false, true, true) := by
  decide

/-- Claim C2: opening a location that lacks `manifest.json` does reject, but with
the raw file-read failure of the collaborator, not the InvalidProject
message: the source builds the InvalidProject rejection without returning
it and then reads the missing file anyway. Both the `Path` branch and the
folder-name branch of `openProject` are evaluated. -/
theorem openProject_missing_manifest_wrong_error :
    ProjectManager.openProjectByPath fsP (Path.ofParts ["p"]) =
      .error (readErr "p/manifest.json")
    ∧ ProjectManager.openProjectByName fsFresh "nope" =
      .error (readErr "Rack Designer/Projects/nope/manifest.json")
    ∧ (readErr "p/manifest.json" == ProjectManager.openInvalidMsg) = false := by
  decide

/-- Claim C3: `createProject` on a name sanitizing to an existing folder does NOT
fail: the `mkdir` rejections (project folder, root `assets`, root
`manifest.json` touch) are never awaited, so they end as unhandled
rejections while the operation resolves with a Project. -/
theorem createProject_existing_name_resolves :
    ((do
      let r1 ← ProjectManager.createProject fsFresh "A" "p1"
      ProjectManager.createProject r1.1 "A" "p2") :
        Except Err (FS × Project)).map
      (fun r => (r.2.manifest.name, r.2.manifest.id, r.1.unhandled)) =
    .ok ("A", "p2", [mkdirExistsMsg, mkdirExistsMsg, touchExistsMsg]) := by
  decide

/-- Claim C5: `listProjects` on an absent projects root returns the empty list;
but after creating one project (and nothing else) it rejects instead of
returning that one entry, because `createProject` polluted the projects
root with an `assets` directory that `listProjects` then tries to open as
a project. -/
theorem listProjects_aborts_after_create :
    ProjectManager.listProjects fsFresh = .ok (fsFresh, [])
    ∧ ((do
        let r1 ← ProjectManager.createProject fsFresh "A" "p1"
        ProjectManager.listProjects r1.1) :
          Except Err (FS × List Project)) =
      .error (readErr "Rack Designer/Projects/assets/manifest.json") := by
  decide

/-- Claim C6: `addTexture` can never succeed once a file is selected: deriving the
destination file name evaluates `Path.extension`, which reads
`pathParts[-1]` (`undefined` in JavaScript) and rejects; so no state in
which the copied asset exists at `getTexturePath` is ever reached.
`getTexturePath` itself is a pure derivation (its type takes no machine
state), shown here at a concrete input. -/
theorem addTexture_then_getTexturePath_broken :
    ((do
      let r1 ← ProjectManager.createProject fsFresh "A" "p1"
      ProjectManager.addTexture r1.1 r1.2 (some "/home/u/photo.png") "t1") :
        Except Err (FS × Project × Option Texture)) =
      .error extnameUndefinedMsg
    ∧ ProjectManager.getTexturePath projA texA =
      Path.ofParts ["Rack Designer", "Projects", "A", "assets", "texture_t1.png"] := by
  decide

/-- Claim C7, counterexample: the import flow does NOT complete successfully with a
null result when the picker is dismissed; it fails with a rejected
operation. -/
theorem importProject_cancel_rejects :
    ProjectManager.importProject fsFresh none =
      .error ProjectManager.importCancelMsg := by
  decide

/-- Claim C7, amended: when the picker is dismissed, the add-texture flow completes
successfully with a null result, while the import flow fails with the
rejection "User closed file select prompt.". -/
theorem cancel_flows_amended :
    (∀ fs proj tid,
      ProjectManager.addTexture fs proj none tid = .ok (fs, proj, none))
    ∧ (∀ fs, ProjectManager.importProject fs none =
        .error ProjectManager.importCancelMsg) :=
  ⟨fun _ _ _ => rfl, fun _ => rfl⟩

/-- Claim C8: for a Path with a non-empty segment list, `basename()` does return
the final segment, but `extension()` rejects instead of returning the
suffix: it evaluates `extname(this.pathParts[-1])`, and index `-1` on a
JavaScript array is `undefined`. -/
theorem path_extension_negative_index_bug :
    Path.basename (Path.ofParts ["a", "photo.png"]) = "photo.png"
    ∧ Path.extension (Path.ofParts ["a", "photo.png"]) =
      .error extnameUndefinedMsg := by
  decide

/-- Claim C4: `removeTexture` returns false and changes nothing (neither manifest
nor machine state) when the id is not in the texture list or when deleting
the asset file rejects; and whenever it returns true, it has removed
exactly the matched record, set `modifiedAt` to the instant read after the
deletion, left every other manifest field and the project path unchanged,
and persisted the new manifest at the project root. -/
theorem removeTexture_spec (fs : FS) (proj : Project) (tid : String) :
    (proj.manifest.textures.findIdx? (fun t => t.id == tid) = none →
      ProjectManager.removeTexture fs proj tid = .ok (fs, proj, false))
  ∧ (∀ idx, proj.manifest.textures.findIdx? (fun t => t.id == tid) = some idx →
      ∀ hlt : idx < proj.manifest.textures.length, ∀ e : Err,
      (ProjectManager.getTexturePath proj
          (proj.manifest.textures.get ⟨idx, hlt⟩)).remove fs false false = .error e →
      ProjectManager.removeTexture fs proj tid = .ok (fs, proj, false))
  ∧ (∀ idx, proj.manifest.textures.findIdx? (fun t => t.id == tid) = some idx →
      ∀ hlt : idx < proj.manifest.textures.length, ∀ fs1 : FS,
      (ProjectManager.getTexturePath proj
          (proj.manifest.textures.get ⟨idx, hlt⟩)).remove fs false false = .ok fs1 →
      ∀ fs' proj' b,
      ProjectManager.removeTexture fs proj tid = .ok (fs', proj', b) →
      b = true
      ∧ proj'.path = proj.path
      ∧ proj'.manifest.textures = proj.manifest.textures.eraseIdx idx
      ∧ proj'.manifest.modifiedAt = fs1.dateNow.1
      ∧ proj'.manifest.createdAt = proj.manifest.createdAt
      ∧ proj'.manifest.rackSize = proj.manifest.rackSize
      ∧ proj'.manifest.name = proj.manifest.name
      ∧ proj'.manifest.id = proj.manifest.id
      ∧ proj'.manifest.version = proj.manifest.version
      ∧ fs'.readFile (proj.path.join ["manifest.json"]).absolute =
          some (Content.manifestData proj'.manifest)) := by
  refine ⟨fun hf => ?_, fun idx hf hlt e hrem => ?_, fun idx hf hlt fs1 hrem fs' proj' b h => ?_⟩
  · simp only [ProjectManager.removeTexture, hf]
  · simp only [ProjectManager.removeTexture, hf]
    rw [dif_pos hlt, hrem]
  · simp only [ProjectManager.removeTexture, hf] at h
    rw [dif_pos hlt, hrem] at h
    dsimp only at h
    split at h
    · exact Except.noConfusion h
    · next fs2' hsv =>
      injection h with h1
      injection h1 with ha h2
      injection h2 with hc hd
      subst ha
      subst hc
      subst hd
      exact ⟨rfl, rfl, rfl, rfl, rfl, rfl, rfl, rfl, rfl,
        FS.readFile_writeFileAt _ _ _ _ hsv⟩

/-- Claim C4, witness: an unknown id at a concrete project returns false and
changes nothing. -/
theorem removeTexture_spec_witness :
    ProjectManager.removeTexture fsFresh projA "zzz" = .ok (fsFresh, projA, false) :=
  (removeTexture_spec fsFresh projA "zzz").1 (by decide)

/-- Claim C9: uniqueness of texture ids is preserved: a created project has
pairwise-distinct ids (its list is empty); the manifest mutation of a
successful `addTexture` preserves distinctness when the generated id is
fresh; and the full `addTexture` and `removeTexture` operations preserve
distinctness on every path on which they resolve. -/
theorem textureIds_unique_invariant :
    (∀ fs name pid fs' proj,
      ProjectManager.createProject fs name pid = .ok (fs', proj) →
      distinctIds proj.manifest)
  ∧ (∀ m t now, t.id ∉ m.textures.map Texture.id → distinctIds m →
      distinctIds (ProjectManager.pushTexture m t now))
  ∧ (∀ fs proj sel tid fs' proj' r, distinctIds proj.manifest →
      ProjectManager.addTexture fs proj sel tid = .ok (fs', proj', r) →
      distinctIds proj'.manifest)
  ∧ (∀ fs proj tid fs' proj' b, distinctIds proj.manifest →
      ProjectManager.removeTexture fs proj tid = .ok (fs', proj', b) →
      distinctIds proj'.manifest) := by
  refine ⟨?_, ?_, ?_, ?_⟩
  · intro fs name pid fs' proj h
    unfold ProjectManager.createProject at h
    dsimp only at h
    split at h
    · exact Except.noConfusion h
    · injection h with h1
      injection h1 with ha hc
      subst hc
      simp [distinctIds]
  · intro m t now hfresh hm
    simp only [distinctIds, ProjectManager.pushTexture, List.map_append,
      List.map_cons, List.map_nil] at hm ⊢
    exact List.Nodup.append hm (List.nodup_singleton t.id)
      (by simpa [List.disjoint_singleton] using hfresh)
  · intro fs proj sel tid fs' proj' r hnd h
    cases sel with
    | none =>
      injection h with h1
      injection h1 with ha h2
      injection h2 with hc hd
      subst hc
      exact hnd
    | some s =>
      rw [addTexture_some_eq_error] at h
      exact Except.noConfusion h
  · intro fs proj tid fs' proj' b hnd h
    unfold ProjectManager.removeTexture at h
    split at h
    · injection h with h1
      injection h1 with ha h2
      injection h2 with hc hd
      subst hc
      exact hnd
    · next idx hf =>
      split at h
      · next hlt =>
        dsimp only at h
        split at h
        · injection h with h1
          injection h1 with ha h2
          injection h2 with hc hd
          subst hc
          exact hnd
        · split at h
          · exact Except.noConfusion h
          · injection h with h1
            injection h1 with ha h2
            injection h2 with hc hd
            subst hc
            simp only [distinctIds]
            exact List.Nodup.sublist
              (List.Sublist.map Texture.id (List.eraseIdx_sublist _ idx)) hnd
      · injection h with h1
        injection h1 with ha h2
        injection h2 with hc hd
        subst hc
        exact hnd

/-- Claim C9, witness: pushing a texture with a fresh id onto a concrete manifest
with distinct ids keeps the ids distinct. -/
theorem textureIds_unique_invariant_witness :
    distinctIds (ProjectManager.pushTexture manA texW 7) :=
  textureIds_unique_invariant.2.1 manA texW 7 (by decide) (by decide)

/-- Claim C10: no successful `addTexture` exists to exhibit a frame effect for:
once a file is selected the operation rejects unconditionally while
deriving the destination file name, before any copy or manifest mutation;
the manifest mutation it would have performed (`pushTexture`) appends
exactly one record, sets `modifiedAt`, and leaves every other field
unchanged. -/
theorem addTexture_frame_unreachable :
    (∀ fs proj sel tid,
      ProjectManager.addTexture fs proj (some sel) tid = .error extnameUndefinedMsg)
    ∧ (∀ m t now,
        (ProjectManager.pushTexture m t now).textures = m.textures ++ [t]
      ∧ (ProjectManager.pushTexture m t now).modifiedAt = now
      ∧ (ProjectManager.pushTexture m t now).version = m.version
      ∧ (ProjectManager.pushTexture m t now).name = m.name
      ∧ (ProjectManager.pushTexture m t now).id = m.id
      ∧ (ProjectManager.pushTexture m t now).rackSize = m.rackSize
      ∧ (ProjectManager.pushTexture m t now).createdAt = m.createdAt) :=
  ⟨fun fs proj sel tid => addTexture_some_eq_error fs proj sel tid,
   fun _ _ _ => ⟨rfl, rfl, rfl, rfl, rfl, rfl, rfl⟩⟩

end RD
